import Mathlib

/-!
Shallow embedding of the battery-simulator repository
(src/battery-simulator/battery.py, charging_strategy.py, site.py).

Python `Decimal` values are modelled as exact rationals (`ℚ`), matching the
spec's stipulation that all capacity and rate arithmetic uses an exact
decimal representation.  Python exceptions are modelled explicitly: an
operation that may raise returns a pair of the post-call object and an
optional error (mirroring that a raise before any mutation leaves the
object unchanged), or an `Except` value when the Python function returns a
fresh value.
-/

/-- `BatteryState` enum from battery.py. -/
inductive BatteryState where
  | CHARGING
  | DISCHARGING
  | IDLE
deriving DecidableEq, Repr

/-- The battery error hierarchy from battery.py: `BatteryFullError` and
`BatteryEmptyError`, each carrying the battery id used in the message. -/
inductive BatteryError where
  | BatteryFullError (battery_id : String)
  | BatteryEmptyError (battery_id : String)
deriving DecidableEq, Repr

/-- Builtin Python exceptions that the repository's code can raise:
`ValueError` (from a capacity setter, or `min`/`max` on an empty list) and
`IndexError` (from indexing a list out of range). -/
inductive PyError where
  | ValueError
  | IndexError
deriving DecidableEq, Repr

/-- A `Battery` object from battery.py: identifier, the two capacity
attributes kept behind validated setters, the state attribute, and the
per-tick input/output history lists. -/
structure Battery where
  battery_id : String
  energy_capacity : ℚ
  power_capacity : ℚ
  state : BatteryState
  battery_inputs : List ℚ
  battery_outputs : List ℚ
deriving DecidableEq, Repr

namespace Battery

/-- `Battery.current_capacity` property: `sum(inputs) - sum(outputs)`. -/
def current_capacity (b : Battery) : ℚ :=
  b.battery_inputs.sum - b.battery_outputs.sum

/-- `Battery.state_of_charge` property: `current_capacity / energy_capacity`. -/
def state_of_charge (b : Battery) : ℚ :=
  b.current_capacity / b.energy_capacity

/-- `Battery.storage_duration` property: `energy_capacity / power_capacity`. -/
def storage_duration (b : Battery) : ℚ :=
  b.energy_capacity / b.power_capacity

/-- The `energy_capacity` setter: raises `ValueError` when the value is
negative (leaving the attribute unchanged), otherwise stores the value. -/
def set_energy_capacity (b : Battery) (value : ℚ) : Battery × Option PyError :=
  if value < 0 then (b, some PyError.ValueError)
  else ({ b with energy_capacity := value }, none)

/-- The `power_capacity` setter: raises `ValueError` when the value is
negative (leaving the attribute unchanged), otherwise stores the value. -/
def set_power_capacity (b : Battery) (value : ℚ) : Battery × Option PyError :=
  if value < 0 then (b, some PyError.ValueError)
  else ({ b with power_capacity := value }, none)

/-- `Battery.charge()`: raises `BatteryFullError` when
`current_capacity == energy_capacity` (before any mutation), otherwise sets
the state to `CHARGING`. -/
def charge (b : Battery) : Battery × Option BatteryError :=
  if b.current_capacity = b.energy_capacity then
    (b, some (BatteryError.BatteryFullError b.battery_id))
  else
    ({ b with state := BatteryState.CHARGING }, none)

/-- `Battery.idle()`: unconditionally sets the state to `IDLE`. -/
def idle (b : Battery) : Battery :=
  { b with state := BatteryState.IDLE }

/-- `Battery.discharge()`: raises `BatteryEmptyError` when
`current_capacity == 0` (before any mutation), otherwise sets the state to
`DISCHARGING`. -/
def discharge (b : Battery) : Battery × Option BatteryError :=
  if b.current_capacity = 0 then
    (b, some (BatteryError.BatteryEmptyError b.battery_id))
  else
    ({ b with state := BatteryState.DISCHARGING }, none)

/-- `Battery.increment()`: appends `power_capacity / 60` to
`battery_inputs` when charging, to `battery_outputs` when discharging, and
does nothing when idle. -/
def increment (b : Battery) : Battery :=
  match b.state with
  | BatteryState.CHARGING =>
      { b with battery_inputs := b.battery_inputs ++ [b.power_capacity / 60] }
  | BatteryState.DISCHARGING =>
      { b with battery_outputs := b.battery_outputs ++ [b.power_capacity / 60] }
  | BatteryState.IDLE => b

end Battery

/-- `GridBattery()` construction: `energy_capacity = 5000`,
`power_capacity = 2500` (both pass the setters' validation), state `IDLE`,
then `Battery.__init__([5000], [0])` installs the history lists and the id
from `generate_battery_id()`. -/
def GridBattery_new : Battery :=
  { battery_id := "abcdfgt"
    energy_capacity := 5000
    power_capacity := 2500
    state := BatteryState.IDLE
    battery_inputs := [5000]
    battery_outputs := [0] }

/-! ## charging_strategy.py -/

namespace LowestToHighestChargingStrategy

/-- `LowestToHighestChargingStrategy.determine_charge_battery`: computes
`min` of the `current_capacity` of the batteries whose state is not
`CHARGING` (Python `min` raises `ValueError` on an empty list), then filters
ALL batteries (the state predicate is not reapplied) down to those whose
`current_capacity` equals that minimum and returns element 0 of that list
(Python raises `IndexError` on an empty list). -/
def determine_charge_battery (charge_rate : ℚ) (batteries : List Battery) :
    Except PyError Battery :=
  let _ := charge_rate
  let caps := (batteries.filter
      (fun b => b.state ≠ BatteryState.CHARGING)).map Battery.current_capacity
  match caps with
  | [] => Except.error PyError.ValueError
  | c :: cs =>
    let lowest_charge := cs.foldl min c
    let eligible_batteries := batteries.filter
      (fun b => b.current_capacity = lowest_charge)
    match eligible_batteries with
    | [] => Except.error PyError.IndexError
    | b :: _ => Except.ok b

/-- `LowestToHighestChargingStrategy.determine_discharge_battery`: computes
`max` of the `current_capacity` of the batteries whose state is not
`DISCHARGING`, then filters ALL batteries down to those whose
`current_capacity` equals that maximum and returns element 0. -/
def determine_discharge_battery (discharge_rate : ℚ) (batteries : List Battery) :
    Except PyError Battery :=
  let _ := discharge_rate
  let caps := (batteries.filter
      (fun b => b.state ≠ BatteryState.DISCHARGING)).map Battery.current_capacity
  match caps with
  | [] => Except.error PyError.ValueError
  | c :: cs =>
    let highest_charge := cs.foldl max c
    let eligible_batteries := batteries.filter
      (fun b => b.current_capacity = highest_charge)
    match eligible_batteries with
    | [] => Except.error PyError.IndexError
    | b :: _ => Except.ok b

end LowestToHighestChargingStrategy

namespace RandomChargingStrategy

/-- `RandomChargingStrategy.determine_charge_battery`: filters to the
batteries whose state is not `CHARGING` and indexes the filtered list with
`randint(0, len(eligible_batteries))`.  Python `randint(a, b)` draws
uniformly from the INCLUSIVE range `[a, b]`; the draw outcome is passed in
as `k`, and an out-of-range index raises `IndexError`. -/
def determine_charge_battery (batteries : List Battery) (k : ℕ) :
    Except PyError Battery :=
  let eligible_batteries := batteries.filter
    (fun b => b.state ≠ BatteryState.CHARGING)
  match eligible_batteries.get? k with
  | some b => Except.ok b
  | none => Except.error PyError.IndexError

/-- `RandomChargingStrategy.determine_discharge_battery`: same as the
charge variant with the `DISCHARGING` predicate. -/
def determine_discharge_battery (batteries : List Battery) (k : ℕ) :
    Except PyError Battery :=
  let eligible_batteries := batteries.filter
    (fun b => b.state ≠ BatteryState.DISCHARGING)
  match eligible_batteries.get? k with
  | some b => Except.ok b
  | none => Except.error PyError.IndexError

end RandomChargingStrategy

/-! ## site.py -/

/-- A `Site` object from site.py: `__init__` stores only the id (from
`generate_site_id()`), the location and the battery list.  No charging
strategy attribute exists on `Site`. -/
structure Site where
  site_id : String
  location : String
  batteries : List Battery
deriving DecidableEq, Repr

namespace Site

/-- `Site.energy_capacity`: the sum of the batteries' energy capacities. -/
def energy_capacity (s : Site) : ℚ :=
  (s.batteries.map Battery.energy_capacity).sum

/-- `Site.current_capacity`: the sum of the batteries' current capacities. -/
def current_capacity (s : Site) : ℚ :=
  (s.batteries.map Battery.current_capacity).sum

/-- `Site.power_capacity`: the sum of the batteries' power capacities. -/
def power_capacity (s : Site) : ℚ :=
  (s.batteries.map Battery.power_capacity).sum

/-- `Site.state`: scan the batteries in order, return the state of the
first one that is charging or discharging, else `IDLE`. -/
def state (s : Site) : BatteryState :=
  match s.batteries.find? (fun b => b.state ≠ BatteryState.IDLE) with
  | some b => b.state
  | none => BatteryState.IDLE

/-- Python `zip(*lists)`: transpose a list of lists, truncating to the
shortest list; `zip()` of no iterables is empty. -/
def pyZipStar : List (List ℚ) → List (List ℚ)
  | [] => []
  | [l] => l.map (fun x => [x])
  | l :: l2 :: ls => List.zipWith (fun x xs => x :: xs) l (pyZipStar (l2 :: ls))

/-- `Site.power_input`: `[Decimal(sum(x)) for x in zip(*battery_input_lists)]`
where `battery_input_lists` is the list of the batteries' `battery_inputs`. -/
def power_input (s : Site) : List ℚ :=
  (pyZipStar (s.batteries.map Battery.battery_inputs)).map List.sum

/-- `Site.charge(rate)`: the method body in site.py consists solely of a
docstring, so the call is a no-op returning `None`; the site (and every
battery in it) is left unchanged and no strategy is consulted. -/
def charge (s : Site) (rate : ℚ) : Site :=
  let _ := rate
  s

end Site

/-! ## Theorems -/

/-- C5: `charge()` raises `BatteryFullError` exactly when
`current_capacity == energy_capacity` (exact equality), leaving the
battery unchanged on the error path, and otherwise sets the state to
`CHARGING` from any prior state changing nothing else; symmetrically,
`discharge()` raises `BatteryEmptyError` exactly when
`current_capacity == 0` with no change, and otherwise sets the state to
`DISCHARGING`. -/
theorem charge_discharge_exact_boundary (b : Battery) :
    (b.current_capacity = b.energy_capacity →
        b.charge = (b, some (BatteryError.BatteryFullError b.battery_id))) ∧
    (b.current_capacity ≠ b.energy_capacity →
        b.charge = ({ b with state := BatteryState.CHARGING }, none)) ∧
    (b.current_capacity = 0 →
        b.discharge = (b, some (BatteryError.BatteryEmptyError b.battery_id))) ∧
    (b.current_capacity ≠ 0 →
        b.discharge = ({ b with state := BatteryState.DISCHARGING }, none)) := by
  refine ⟨?_, ?_, ?_, ?_⟩ <;> intro h <;>
    simp [Battery.charge, Battery.discharge, h]

/-- Witness for C5 at a fresh `GridBattery` (full, hence `charge` raises
and `discharge` succeeds). -/
theorem charge_discharge_exact_boundary_witness :
    GridBattery_new.charge
        = (GridBattery_new, some (BatteryError.BatteryFullError "abcdfgt")) ∧
    GridBattery_new.discharge
        = ({ GridBattery_new with state := BatteryState.DISCHARGING }, none) :=
  ⟨(charge_discharge_exact_boundary GridBattery_new).1
      (by simp [GridBattery_new, Battery.current_capacity]),
   (charge_discharge_exact_boundary GridBattery_new).2.2.2
      (by simp [GridBattery_new, Battery.current_capacity])⟩

/-- C6: one `increment()` appends exactly `power_capacity / 60` to
`battery_inputs` when charging, appends it to `battery_outputs` when
discharging, and appends to neither when idle; and the spec's scenario: a
fresh full `GridBattery` (5000/2500/5000), after `discharge()` then one
`increment()`, has `current_capacity = 5000 - 2500/60`. -/
theorem increment_one_tick (b : Battery) :
    (b.state = BatteryState.CHARGING →
        b.increment
          = { b with battery_inputs :=
                b.battery_inputs ++ [b.power_capacity / 60] }) ∧
    (b.state = BatteryState.DISCHARGING →
        b.increment
          = { b with battery_outputs :=
                b.battery_outputs ++ [b.power_capacity / 60] }) ∧
    (b.state = BatteryState.IDLE → b.increment = b) ∧
    GridBattery_new.discharge.1.increment.current_capacity
      = 5000 - 2500 / 60 := by
  refine ⟨fun h => ?_, fun h => ?_, fun h => ?_, ?_⟩
  · simp [Battery.increment, h]
  · simp [Battery.increment, h]
  · simp [Battery.increment, h]
  · norm_num [GridBattery_new, Battery.discharge, Battery.increment,
      Battery.current_capacity]

/-- Witness for C6 at a fresh `GridBattery`, which is idle: `increment()`
leaves it unchanged. -/
theorem increment_one_tick_witness :
    GridBattery_new.increment = GridBattery_new :=
  (increment_one_tick GridBattery_new).2.2.1 rfl

/-- C10: a freshly constructed `GridBattery` has `battery_inputs = [5000]`,
`battery_outputs = [0]`, state `IDLE`,
`current_capacity = energy_capacity = 5000`, `state_of_charge = 1`;
`charge()` on it raises `BatteryFullError` while `discharge()` succeeds. -/
theorem grid_battery_fresh_full :
    GridBattery_new.battery_inputs = [5000] ∧
    GridBattery_new.battery_outputs = [0] ∧
    GridBattery_new.state = BatteryState.IDLE ∧
    GridBattery_new.current_capacity = GridBattery_new.energy_capacity ∧
    GridBattery_new.energy_capacity = 5000 ∧
    GridBattery_new.state_of_charge = 1 ∧
    GridBattery_new.charge
      = (GridBattery_new,
         some (BatteryError.BatteryFullError GridBattery_new.battery_id)) ∧
    GridBattery_new.discharge
      = ({ GridBattery_new with state := BatteryState.DISCHARGING }, none) := by
  norm_num [GridBattery_new, Battery.current_capacity, Battery.state_of_charge,
    Battery.charge, Battery.discharge]

/-- C8 counterexample: the setters accept the value 0 without raising
(`value < 0` is the only rejected case), so the claimed invariant
`energy_capacity > 0` / `power_capacity > 0` after a successful assignment
is false: assigning 0 succeeds and leaves a non-positive capacity. -/
theorem set_capacity_zero_accepted :
    (GridBattery_new.set_energy_capacity 0).2 = none ∧
    (GridBattery_new.set_energy_capacity 0).1.energy_capacity = 0 ∧
    (GridBattery_new.set_power_capacity 0).2 = none ∧
    (GridBattery_new.set_power_capacity 0).1.power_capacity = 0 ∧
    ¬ ((0 : ℚ) > 0) := by
  norm_num [Battery.set_energy_capacity, Battery.set_power_capacity]

/-- C8 amended: a negative energy or power capacity raises `ValueError`
immediately and the attribute is not assigned; an assignment succeeds
exactly when the value is nonnegative (so zero is accepted), and after
every successful assignment the stored capacity is the assigned
nonnegative value, giving the invariant `energy_capacity ≥ 0` /
`power_capacity ≥ 0`. -/
theorem set_capacity_validation (b : Battery) (v : ℚ) :
    (v < 0 →
        b.set_energy_capacity v = (b, some PyError.ValueError) ∧
        b.set_power_capacity v = (b, some PyError.ValueError)) ∧
    (0 ≤ v →
        b.set_energy_capacity v = ({ b with energy_capacity := v }, none) ∧
        b.set_power_capacity v = ({ b with power_capacity := v }, none)) ∧
    ((b.set_energy_capacity v).2 = none ↔ 0 ≤ v) ∧
    ((b.set_power_capacity v).2 = none ↔ 0 ≤ v) := by
  by_cases h : v < 0 <;>
    simp [Battery.set_energy_capacity, Battery.set_power_capacity, h,
      le_of_not_lt, not_le.mpr]

/-- Witness for C8's amended theorem at `GridBattery` and the values
`-1` (rejected) and `0` (accepted). -/
theorem set_capacity_validation_witness :
    (GridBattery_new.set_energy_capacity (-1)
        = (GridBattery_new, some PyError.ValueError) ∧
     GridBattery_new.set_power_capacity (-1)
        = (GridBattery_new, some PyError.ValueError)) ∧
    (GridBattery_new.set_energy_capacity 0
        = ({ GridBattery_new with energy_capacity := 0 }, none) ∧
     GridBattery_new.set_power_capacity 0
        = ({ GridBattery_new with power_capacity := 0 }, none)) :=
  ⟨(set_capacity_validation GridBattery_new (-1)).1 (by norm_num),
   (set_capacity_validation GridBattery_new 0).2.1 (le_refl 0)⟩

/-- Helper for C7: iterating `increment()` on a charging battery adds
`k * power_capacity / 60` to the current capacity (the state, and hence
the charging branch, is preserved by every tick). -/
theorem increment_iterate_capacity (k : ℕ) :
    ∀ b : Battery, b.state = BatteryState.CHARGING →
      (Battery.increment^[k] b).current_capacity
        = b.current_capacity + k * (b.power_capacity / 60) := by
  induction k with
  | zero => intro b h; simp
  | succ n ih =>
    intro b h
    rw [Function.iterate_succ_apply]
    have hb : b.increment
        = { b with battery_inputs := b.battery_inputs ++ [b.power_capacity / 60] } := by
      simp [Battery.increment, h]
    rw [hb, ih { b with battery_inputs := b.battery_inputs ++ [b.power_capacity / 60] } h]
    simp [Battery.current_capacity, List.sum_append]
    ring

/-- C7: a charging battery with `current_capacity == 0`, after exactly
`60 × storage_duration` increments (a whole number `k` of ticks, each
appending `power_capacity / 60` to `battery_inputs`), reaches
`current_capacity == energy_capacity` exactly, under exact (rational)
decimal arithmetic. -/
theorem charging_round_trip (b : Battery) (k : ℕ)
    (hs : b.state = BatteryState.CHARGING)
    (h0 : b.current_capacity = 0)
    (hp : b.power_capacity ≠ 0)
    (hk : (k : ℚ) = 60 * b.storage_duration) :
    (Battery.increment^[k] b).current_capacity = b.energy_capacity := by
  rw [increment_iterate_capacity k b hs, h0, hk, Battery.storage_duration, zero_add]
  field_simp

/-- Witness for C7: an empty charging battery with
`energy_capacity = power_capacity = 60` (so `storage_duration = 1` hour)
reaches exactly 60 kWh after 60 ticks. -/
theorem charging_round_trip_witness :
    (Battery.increment^[60]
        ⟨"w", 60, 60, BatteryState.CHARGING, [], []⟩).current_capacity = 60 :=
  charging_round_trip ⟨"w", 60, 60, BatteryState.CHARGING, [], []⟩ 60 rfl
    (by norm_num [Battery.current_capacity]) (by norm_num)
    (by norm_num [Battery.storage_duration])

/-- C2, code evaluated at the failing input: with three idle batteries of
`power_capacity = 2500` each and a requested discharge rate of 5000,
`determine_discharge_battery` returns only the single highest-capacity
battery (whose `power_capacity` is below the requested rate); the rate
argument is never consulted, no further batteries are accumulated and no
partial-fulfillment flag exists in the return type. -/
theorem discharge_rate_not_accumulated :
    LowestToHighestChargingStrategy.determine_discharge_battery 5000
        [⟨"b1", 5000, 2500, BatteryState.IDLE, [10], []⟩,
         ⟨"b2", 5000, 2500, BatteryState.IDLE, [20], []⟩,
         ⟨"b3", 5000, 2500, BatteryState.IDLE, [30], []⟩]
      = Except.ok ⟨"b3", 5000, 2500, BatteryState.IDLE, [30], []⟩ ∧
    (2500 : ℚ) < 5000 := by
  constructor
  · simp +decide [LowestToHighestChargingStrategy.determine_discharge_battery,
      Battery.current_capacity, List.filter_cons, List.filter_nil]
  · norm_num

/-- C3, code evaluated: `Site.charge` is a stub whose body is only a
docstring, so for every site and rate the call returns with the site (and
every battery state in it) unchanged; no charging strategy is stored on
`Site`, consulted, or able to abort the command. -/
theorem site_charge_is_noop :
    (∀ (s : Site) (rate : ℚ), s.charge rate = s) ∧
    ((Site.charge
        ⟨"Site A", "loc", [⟨"i", 10, 1, BatteryState.IDLE, [3], []⟩]⟩
        100).batteries.map Battery.state = [BatteryState.IDLE]) := by
  exact ⟨fun s rate => rfl, rfl⟩

/-- C9, code evaluated at the failing input: with one idle battery the
eligible list has length 1, and `randint(0, 1)` (INCLUSIVE upper bound in
Python) can draw 1; indexing the eligible list at 1 raises `IndexError`
instead of returning an eligible battery, for both the charge and the
discharge variants. -/
theorem random_strategy_index_out_of_range :
    ([(⟨"i", 10, 1, BatteryState.IDLE, [3], []⟩ : Battery)].filter
        (fun b => b.state ≠ BatteryState.CHARGING)).length = 1 ∧
    RandomChargingStrategy.determine_charge_battery
        [⟨"i", 10, 1, BatteryState.IDLE, [3], []⟩] 1
      = Except.error PyError.IndexError ∧
    RandomChargingStrategy.determine_discharge_battery
        [⟨"i", 10, 1, BatteryState.IDLE, [3], []⟩] 1
      = Except.error PyError.IndexError := by
  refine ⟨by decide, ?_, ?_⟩ <;>
    simp +decide [RandomChargingStrategy.determine_charge_battery,
      RandomChargingStrategy.determine_discharge_battery,
      List.filter_cons, List.filter_nil]

/-- C1 counterexample: on the list `[charging battery, idle battery]` with
equal `current_capacity`, `determine_charge_battery` returns the FIRST
battery, whose state IS `CHARGING` (the eligibility filter is applied only
when computing the minimum, not when selecting), refuting the claim that
the returned battery's state is never `Charging`. -/
theorem lowest_to_highest_returns_charging_battery :
    LowestToHighestChargingStrategy.determine_charge_battery 0
        [⟨"c", 10, 1, BatteryState.CHARGING, [3], []⟩,
         ⟨"i", 10, 1, BatteryState.IDLE, [3], []⟩]
      = Except.ok ⟨"c", 10, 1, BatteryState.CHARGING, [3], []⟩ ∧
    BatteryState.CHARGING ≠ BatteryState.IDLE := by
  constructor
  · simp +decide [LowestToHighestChargingStrategy.determine_charge_battery,
      Battery.current_capacity, List.filter_cons, List.filter_nil]
  · decide

/-- Helper for C4: under equal lengths `n`, `pyZipStar` is the transpose:
entry `k` is the list of the `k`-th elements. -/
theorem pyZipStar_getElem? (ls : List (List ℚ)) (n : ℕ) :
    ls ≠ [] → (∀ l ∈ ls, l.length = n) → ∀ k, k < n →
      (Site.pyZipStar ls)[k]? = some (ls.map (fun l => l.getD k 0)) := by
  induction ls with
  | nil => intro hne; exact absurd rfl hne
  | cons l ls ih =>
    intro _ h k hk
    have hl : l[k]? = some (l.getD k 0) := by
      rw [List.getD_eq_getElem?_getD,
        List.getElem?_eq_getElem (by rw [h l (List.mem_cons_self l ls)]; exact hk)]
      rfl
    cases ls with
    | nil =>
      simp only [Site.pyZipStar, List.getElem?_map, hl, Option.map_some]
      rfl
    | cons l2 ls2 =>
      have hrec := ih (by simp)
        (fun l2 hl2 => h l2 (List.mem_cons_of_mem l hl2)) k hk
      show (List.zipWith (fun x xs => x :: xs) l (Site.pyZipStar (l2 :: ls2)))[k]?
          = some ((l :: l2 :: ls2).map (fun l3 => l3.getD k 0))
      rw [List.getElem?_zipWith, hl, hrec]
      rfl

/-- Helper for C4: under equal lengths `n`, `pyZipStar` has length `n`. -/
theorem pyZipStar_length (ls : List (List ℚ)) (n : ℕ) :
    ls ≠ [] → (∀ l ∈ ls, l.length = n) → (Site.pyZipStar ls).length = n := by
  induction ls with
  | nil => intro hne; exact absurd rfl hne
  | cons l ls ih =>
    intro _ h
    cases ls with
    | nil => simp [Site.pyZipStar, h l (by simp)]
    | cons l2 ls2 =>
      show (List.zipWith (fun x xs => x :: xs) l (Site.pyZipStar (l2 :: ls2))).length = n
      rw [List.length_zipWith, ih (by simp)
        (fun l3 hl3 => h l3 (List.mem_cons_of_mem l hl3)),
        h l (by simp)]
      exact min_self n

/-- C4 amended: for a site with a non-empty battery list whose
`battery_inputs` sequences all have length `n`, `power_input` is the
length-`n` list whose `k`-th element is the sum over the batteries of the
`k`-th element of each `battery_inputs` sequence.  (When the lengths are
unequal, `zip` silently truncates to the shortest sequence.) -/
theorem power_input_elementwise (s : Site) (n : ℕ)
    (hne : s.batteries ≠ [])
    (hlen : ∀ b ∈ s.batteries, b.battery_inputs.length = n) :
    (Site.power_input s).length = n ∧
    ∀ k, k < n →
      (Site.power_input s).getD k 0
        = (s.batteries.map (fun b => b.battery_inputs.getD k 0)).sum := by
  have hmne : s.batteries.map Battery.battery_inputs ≠ [] := by simp [hne]
  have hml : ∀ l ∈ s.batteries.map Battery.battery_inputs, l.length = n := by
    intro l hl
    obtain ⟨b, hb, rfl⟩ := List.mem_map.mp hl
    exact hlen b hb
  constructor
  · rw [Site.power_input, List.length_map]
    exact pyZipStar_length _ n hmne hml
  · intro k hk
    rw [Site.power_input, List.getD_eq_getElem?_getD, List.getElem?_map,
      pyZipStar_getElem? _ n hmne hml k hk]
    simp [List.map_map, Function.comp]
    rfl

/-- C4 counterexample: with input histories `[1, 2]` and `[3]` (lengths 2
and 1), `power_input` IS a silent truncation to the shortest sequence: the
result `[4]` has length 1 and drops the first battery's second tick. -/
theorem power_input_silent_truncation :
    Site.power_input ⟨"Site A", "x",
        [⟨"a", 10, 1, BatteryState.IDLE, [1, 2], []⟩,
         ⟨"b", 10, 1, BatteryState.IDLE, [3], []⟩]⟩ = [4] ∧
    ([(1 : ℚ), 2].length = 2 ∧ [(3 : ℚ)].length = 1) := by
  constructor
  · norm_num [Site.power_input, Site.pyZipStar]
  · simp

/-- Witness for C4's amended theorem at a concrete two-battery site with
aligned histories of length 2. -/
theorem power_input_elementwise_witness :
    (Site.power_input ⟨"Site A", "x",
        [⟨"a", 10, 1, BatteryState.IDLE, [1, 2], []⟩,
         ⟨"b", 10, 1, BatteryState.IDLE, [3, 4], []⟩]⟩).length = 2 ∧
    (Site.power_input ⟨"Site A", "x",
        [⟨"a", 10, 1, BatteryState.IDLE, [1, 2], []⟩,
         ⟨"b", 10, 1, BatteryState.IDLE, [3, 4], []⟩]⟩).getD 0 0
      = ((⟨"Site A", "x",
        [⟨"a", 10, 1, BatteryState.IDLE, [1, 2], []⟩,
         ⟨"b", 10, 1, BatteryState.IDLE, [3, 4], []⟩]⟩ : Site).batteries.map
            (fun b => b.battery_inputs.getD 0 0)).sum :=
  ⟨(power_input_elementwise _ 2 (by simp)
      (by intro b hb; fin_cases hb <;> rfl)).1,
   (power_input_elementwise _ 2 (by simp)
      (by intro b hb; fin_cases hb <;> rfl)).2 0 (by norm_num)⟩

/-- Helper for C1: a left fold of `min` is a lower bound of the seed and
of every list element (Python `min` over a non-empty list). -/
theorem foldl_min_le (cs : List ℚ) (c : ℚ) :
    cs.foldl min c ≤ c ∧ ∀ x ∈ cs, cs.foldl min c ≤ x := by
  induction cs generalizing c with
  | nil => simp
  | cons d ds ih =>
    simp only [List.foldl_cons]
    refine ⟨le_trans (ih (min c d)).1 (min_le_left c d), ?_⟩
    intro x hx
    rcases List.mem_cons.mp hx with rfl | hx2
    · exact le_trans (ih (min c x)).1 (min_le_right c x)
    · exact (ih (min c d)).2 x hx2

/-- Helper for C1: a left fold of `min` is attained by the seed or by a
list element. -/
theorem foldl_min_mem (cs : List ℚ) (c : ℚ) :
    cs.foldl min c = c ∨ cs.foldl min c ∈ cs := by
  induction cs generalizing c with
  | nil => left; rfl
  | cons d ds ih =>
    simp only [List.foldl_cons]
    rcases ih (min c d) with h | h
    · rcases le_total c d with hcd | hcd
      · left; rw [h, min_eq_left hcd]
      · right; rw [h, min_eq_right hcd]; exact List.mem_cons_self d ds
    · right; exact List.mem_cons_of_mem d h

/-- Helper for C1: a left fold of `max` is an upper bound of the seed and
of every list element (Python `max` over a non-empty list). -/
theorem foldl_max_ge (cs : List ℚ) (c : ℚ) :
    c ≤ cs.foldl max c ∧ ∀ x ∈ cs, x ≤ cs.foldl max c := by
  induction cs generalizing c with
  | nil => simp
  | cons d ds ih =>
    simp only [List.foldl_cons]
    refine ⟨le_trans (le_max_left c d) (ih (max c d)).1, ?_⟩
    intro x hx
    rcases List.mem_cons.mp hx with rfl | hx2
    · exact le_trans (le_max_right c x) (ih (max c x)).1
    · exact (ih (max c d)).2 x hx2

/-- Helper for C1: a left fold of `max` is attained by the seed or by a
list element. -/
theorem foldl_max_mem (cs : List ℚ) (c : ℚ) :
    cs.foldl max c = c ∨ cs.foldl max c ∈ cs := by
  induction cs generalizing c with
  | nil => left; rfl
  | cons d ds ih =>
    simp only [List.foldl_cons]
    rcases ih (max c d) with h | h
    · rcases le_total c d with hcd | hcd
      · right; rw [h, max_eq_right hcd]; exact List.mem_cons_self d ds
      · left; rw [h, max_eq_left hcd]
    · right; exact List.mem_cons_of_mem d h

/-- Helper for C1: when every battery is already charging the filtered
list is empty and `min()` raises `ValueError`. -/
theorem determine_charge_eq_error (r : ℚ) (bs : List Battery)
    (h : bs.filter (fun b => b.state ≠ BatteryState.CHARGING) = []) :
    LowestToHighestChargingStrategy.determine_charge_battery r bs
      = Except.error PyError.ValueError := by
  unfold LowestToHighestChargingStrategy.determine_charge_battery
  rw [h]
  rfl

/-- Helper for C1: unfolding `determine_charge_battery` on a non-empty
filtered list: the result is the head of the capacity-equality filter. -/
theorem determine_charge_eq_ok (r : ℚ) (bs : List Battery)
    (f b : Battery) (fs rest : List Battery)
    (hF : bs.filter (fun b2 => b2.state ≠ BatteryState.CHARGING) = f :: fs)
    (hE : bs.filter (fun b2 => b2.current_capacity
            = (fs.map Battery.current_capacity).foldl min f.current_capacity)
          = b :: rest) :
    LowestToHighestChargingStrategy.determine_charge_battery r bs
      = Except.ok b := by
  unfold LowestToHighestChargingStrategy.determine_charge_battery
  rw [hF]
  simp only [List.map_cons]
  rw [hE]

/-- Helper for C1: when every battery is already discharging the filtered
list is empty and `max()` raises `ValueError`. -/
theorem determine_discharge_eq_error (r : ℚ) (bs : List Battery)
    (h : bs.filter (fun b => b.state ≠ BatteryState.DISCHARGING) = []) :
    LowestToHighestChargingStrategy.determine_discharge_battery r bs
      = Except.error PyError.ValueError := by
  unfold LowestToHighestChargingStrategy.determine_discharge_battery
  rw [h]
  rfl

/-- Helper for C1: unfolding `determine_discharge_battery` on a non-empty
filtered list: the result is the head of the capacity-equality filter. -/
theorem determine_discharge_eq_ok (r : ℚ) (bs : List Battery)
    (f b : Battery) (fs rest : List Battery)
    (hF : bs.filter (fun b2 => b2.state ≠ BatteryState.DISCHARGING) = f :: fs)
    (hE : bs.filter (fun b2 => b2.current_capacity
            = (fs.map Battery.current_capacity).foldl max f.current_capacity)
          = b :: rest) :
    LowestToHighestChargingStrategy.determine_discharge_battery r bs
      = Except.ok b := by
  unfold LowestToHighestChargingStrategy.determine_discharge_battery
  rw [hF]
  simp only [List.map_cons]
  rw [hE]

/-- C1 amended: when every battery is Charging, `determine_charge_battery`
raises `ValueError` (from `min()` on an empty list; no `EligibilityError`
class exists in the code); otherwise it returns the FIRST battery in
input-list order whose `current_capacity` equals the minimum
`current_capacity` among the non-Charging batteries — a battery that may
itself be Charging, since the state filter is applied only when computing
the minimum.  Symmetrically for `determine_discharge_battery` with the
maximum over the non-Discharging batteries. -/
theorem lowest_to_highest_selection (r : ℚ) (bs : List Battery) :
    ((∀ b ∈ bs, b.state = BatteryState.CHARGING) →
      LowestToHighestChargingStrategy.determine_charge_battery r bs
        = Except.error PyError.ValueError) ∧
    ((∃ b ∈ bs, b.state ≠ BatteryState.CHARGING) →
      ∃ b pre post,
        LowestToHighestChargingStrategy.determine_charge_battery r bs
          = Except.ok b ∧
        bs = pre ++ b :: post ∧
        (∀ b2 ∈ pre, b2.current_capacity ≠ b.current_capacity) ∧
        (∃ b3 ∈ bs, b3.state ≠ BatteryState.CHARGING ∧
          b3.current_capacity = b.current_capacity) ∧
        (∀ b4 ∈ bs, b4.state ≠ BatteryState.CHARGING →
          b.current_capacity ≤ b4.current_capacity)) ∧
    ((∀ b ∈ bs, b.state = BatteryState.DISCHARGING) →
      LowestToHighestChargingStrategy.determine_discharge_battery r bs
        = Except.error PyError.ValueError) ∧
    ((∃ b ∈ bs, b.state ≠ BatteryState.DISCHARGING) →
      ∃ b pre post,
        LowestToHighestChargingStrategy.determine_discharge_battery r bs
          = Except.ok b ∧
        bs = pre ++ b :: post ∧
        (∀ b2 ∈ pre, b2.current_capacity ≠ b.current_capacity) ∧
        (∃ b3 ∈ bs, b3.state ≠ BatteryState.DISCHARGING ∧
          b3.current_capacity = b.current_capacity) ∧
        (∀ b4 ∈ bs, b4.state ≠ BatteryState.DISCHARGING →
          b4.current_capacity ≤ b.current_capacity)) := by
  refine ⟨?_, ?_, ?_, ?_⟩
  · intro hall
    apply determine_charge_eq_error
    rw [List.filter_eq_nil_iff]
    intro a ha
    simp [hall a ha]
  · rintro ⟨w, hw, hws⟩
    have hwf : w ∈ bs.filter (fun b => b.state ≠ BatteryState.CHARGING) :=
      List.mem_filter.mpr ⟨hw, decide_eq_true hws⟩
    cases hF : bs.filter (fun b => b.state ≠ BatteryState.CHARGING) with
    | nil => rw [hF] at hwf; exact absurd hwf (List.not_mem_nil w)
    | cons f fs =>
      have hmem : (fs.map Battery.current_capacity).foldl min f.current_capacity
          ∈ (f :: fs).map Battery.current_capacity := by
        rw [List.map_cons]
        rcases foldl_min_mem (fs.map Battery.current_capacity) f.current_capacity
          with h | h
        · rw [h]; exact List.mem_cons_self _ _
        · exact List.mem_cons_of_mem _ h
      obtain ⟨b3, hb3, hb3cap⟩ := List.mem_map.mp hmem
      have hb3f := List.mem_filter.mp (hF ▸ hb3)
      have hb3bs : b3 ∈ bs := hb3f.1
      have hb3s : b3.state ≠ BatteryState.CHARGING := of_decide_eq_true hb3f.2
      have hb3elig : b3 ∈ bs.filter (fun b => b.current_capacity
          = (fs.map Battery.current_capacity).foldl min f.current_capacity) :=
        List.mem_filter.mpr ⟨hb3bs, decide_eq_true hb3cap⟩
      cases hE : bs.filter (fun b => b.current_capacity
          = (fs.map Battery.current_capacity).foldl min f.current_capacity) with
      | nil => rw [hE] at hb3elig; exact absurd hb3elig (List.not_mem_nil b3)
      | cons b rest =>
        obtain ⟨pre, post, hsplit, hpre, hb, -⟩ := List.filter_eq_cons_iff.mp hE
        have hcapb : b.current_capacity
            = (fs.map Battery.current_capacity).foldl min f.current_capacity :=
          of_decide_eq_true hb
        refine ⟨b, pre, post, determine_charge_eq_ok r bs f b fs rest hF hE,
          hsplit, ?_, ?_, ?_⟩
        · intro b2 hb2 hc
          exact hpre b2 hb2 (decide_eq_true (hc.trans hcapb))
        · exact ⟨b3, hb3bs, hb3s, hb3cap.trans hcapb.symm⟩
        · intro b4 hb4 hb4s
          have hb4f : b4 ∈ bs.filter (fun b => b.state ≠ BatteryState.CHARGING) :=
            List.mem_filter.mpr ⟨hb4, decide_eq_true hb4s⟩
          rw [hF] at hb4f
          have hcap4 : b4.current_capacity
              ∈ f.current_capacity :: fs.map Battery.current_capacity := by
            rw [← List.map_cons]
            exact List.mem_map.mpr ⟨b4, hb4f, rfl⟩
          rw [hcapb]
          rcases List.mem_cons.mp hcap4 with heq | hmem2
          · rw [heq]
            exact (foldl_min_le (fs.map Battery.current_capacity)
              f.current_capacity).1
          · exact (foldl_min_le (fs.map Battery.current_capacity)
              f.current_capacity).2 _ hmem2
  · intro hall
    apply determine_discharge_eq_error
    rw [List.filter_eq_nil_iff]
    intro a ha
    simp [hall a ha]
  · rintro ⟨w, hw, hws⟩
    have hwf : w ∈ bs.filter (fun b => b.state ≠ BatteryState.DISCHARGING) :=
      List.mem_filter.mpr ⟨hw, decide_eq_true hws⟩
    cases hF : bs.filter (fun b => b.state ≠ BatteryState.DISCHARGING) with
    | nil => rw [hF] at hwf; exact absurd hwf (List.not_mem_nil w)
    | cons f fs =>
      have hmem : (fs.map Battery.current_capacity).foldl max f.current_capacity
          ∈ (f :: fs).map Battery.current_capacity := by
        rw [List.map_cons]
        rcases foldl_max_mem (fs.map Battery.current_capacity) f.current_capacity
          with h | h
        · rw [h]; exact List.mem_cons_self _ _
        · exact List.mem_cons_of_mem _ h
      obtain ⟨b3, hb3, hb3cap⟩ := List.mem_map.mp hmem
      have hb3f := List.mem_filter.mp (hF ▸ hb3)
      have hb3bs : b3 ∈ bs := hb3f.1
      have hb3s : b3.state ≠ BatteryState.DISCHARGING := of_decide_eq_true hb3f.2
      have hb3elig : b3 ∈ bs.filter (fun b => b.current_capacity
          = (fs.map Battery.current_capacity).foldl max f.current_capacity) :=
        List.mem_filter.mpr ⟨hb3bs, decide_eq_true hb3cap⟩
      cases hE : bs.filter (fun b => b.current_capacity
          = (fs.map Battery.current_capacity).foldl max f.current_capacity) with
      | nil => rw [hE] at hb3elig; exact absurd hb3elig (List.not_mem_nil b3)
      | cons b rest =>
        obtain ⟨pre, post, hsplit, hpre, hb, -⟩ := List.filter_eq_cons_iff.mp hE
        have hcapb : b.current_capacity
            = (fs.map Battery.current_capacity).foldl max f.current_capacity :=
          of_decide_eq_true hb
        refine ⟨b, pre, post, determine_discharge_eq_ok r bs f b fs rest hF hE,
          hsplit, ?_, ?_, ?_⟩
        · intro b2 hb2 hc
          exact hpre b2 hb2 (decide_eq_true (hc.trans hcapb))
        · exact ⟨b3, hb3bs, hb3s, hb3cap.trans hcapb.symm⟩
        · intro b4 hb4 hb4s
          have hb4f : b4 ∈ bs.filter (fun b => b.state ≠ BatteryState.DISCHARGING) :=
            List.mem_filter.mpr ⟨hb4, decide_eq_true hb4s⟩
          rw [hF] at hb4f
          have hcap4 : b4.current_capacity
              ∈ f.current_capacity :: fs.map Battery.current_capacity := by
            rw [← List.map_cons]
            exact List.mem_map.mpr ⟨b4, hb4f, rfl⟩
          rw [hcapb]
          rcases List.mem_cons.mp hcap4 with heq | hmem2
          · rw [heq]
            exact (foldl_max_ge (fs.map Battery.current_capacity)
              f.current_capacity).1
          · exact (foldl_max_ge (fs.map Battery.current_capacity)
              f.current_capacity).2 _ hmem2

/-- Witness for C1's amended theorem: a singleton all-charging list and a
singleton all-discharging list hit the two error branches; a singleton
idle list hits the two selection branches. -/
theorem lowest_to_highest_selection_witness :
    LowestToHighestChargingStrategy.determine_charge_battery 0
        [⟨"c", 10, 1, BatteryState.CHARGING, [3], []⟩]
      = Except.error PyError.ValueError ∧
    LowestToHighestChargingStrategy.determine_discharge_battery 0
        [⟨"d", 10, 1, BatteryState.DISCHARGING, [3], []⟩]
      = Except.error PyError.ValueError ∧
    (∃ b pre post,
      LowestToHighestChargingStrategy.determine_charge_battery 0
          [⟨"i", 10, 1, BatteryState.IDLE, [3], []⟩] = Except.ok b ∧
      [(⟨"i", 10, 1, BatteryState.IDLE, [3], []⟩ : Battery)] = pre ++ b :: post ∧
      (∀ b2 ∈ pre, b2.current_capacity ≠ b.current_capacity) ∧
      (∃ b3 ∈ [(⟨"i", 10, 1, BatteryState.IDLE, [3], []⟩ : Battery)],
        b3.state ≠ BatteryState.CHARGING ∧
        b3.current_capacity = b.current_capacity) ∧
      (∀ b4 ∈ [(⟨"i", 10, 1, BatteryState.IDLE, [3], []⟩ : Battery)],
        b4.state ≠ BatteryState.CHARGING →
        b.current_capacity ≤ b4.current_capacity)) ∧
    (∃ b pre post,
      LowestToHighestChargingStrategy.determine_discharge_battery 0
          [⟨"i", 10, 1, BatteryState.IDLE, [3], []⟩] = Except.ok b ∧
      [(⟨"i", 10, 1, BatteryState.IDLE, [3], []⟩ : Battery)] = pre ++ b :: post ∧
      (∀ b2 ∈ pre, b2.current_capacity ≠ b.current_capacity) ∧
      (∃ b3 ∈ [(⟨"i", 10, 1, BatteryState.IDLE, [3], []⟩ : Battery)],
        b3.state ≠ BatteryState.DISCHARGING ∧
        b3.current_capacity = b.current_capacity) ∧
      (∀ b4 ∈ [(⟨"i", 10, 1, BatteryState.IDLE, [3], []⟩ : Battery)],
        b4.state ≠ BatteryState.DISCHARGING →
        b4.current_capacity ≤ b.current_capacity)) :=
  ⟨(lowest_to_highest_selection 0
      [⟨"c", 10, 1, BatteryState.CHARGING, [3], []⟩]).1
      (by intro b hb; fin_cases hb; rfl),
   (lowest_to_highest_selection 0
      [⟨"d", 10, 1, BatteryState.DISCHARGING, [3], []⟩]).2.2.1
      (by intro b hb; fin_cases hb; rfl),
   (lowest_to_highest_selection 0
      [⟨"i", 10, 1, BatteryState.IDLE, [3], []⟩]).2.1
      ⟨_, List.mem_cons_self _ _, by decide⟩,
   (lowest_to_highest_selection 0
      [⟨"i", 10, 1, BatteryState.IDLE, [3], []⟩]).2.2.2
      ⟨_, List.mem_cons_self _ _, by decide⟩⟩
